import Mathlib

/-!
Shallow embedding of the scheduler/coordination core of the `cogno` repository
(src/core.rs, src/continuous_mind.rs, src/goals.rs, src/attention.rs), with
theorems settling the frozen claims about it.

Modelling conventions:
* Rust `f64` values are embedded as `ℚ` (exact arithmetic); all numeric
  constants in the source are decimal literals, so their `ℚ` images are exact
  and order-faithful.
* Timestamps (`DateTime<Utc>`, whole minutes in every use site) are embedded
  as `ℤ`; `Instant` values used only for bookkeeping order are embedded as a
  monotonically increasing `ℕ` tick kept in the state.
* `HashMap` containers are embedded as association lists; iteration order is
  the list order.  Every fact proved below about a `HashMap`-backed operation
  either uses distinct keys/scores (so the result is independent of iteration
  order) or quantifies over the list state.
* Rust `Vec::sort_by` is a stable sort; it is embedded as
  `List.insertionSort`, which is stable and sorted for a total transitive
  relation.
-/

namespace Cogno

/-- Model of Rust `f64::clamp(lo, hi)`: clamp `x` into the interval
`[lo, hi]`. -/
def qclamp (x lo hi : ℚ) : ℚ := min (max x lo) hi

theorem qclamp_le {x lo hi : ℚ} : qclamp x lo hi ≤ hi := min_le_right _ _

theorem le_qclamp {x lo hi : ℚ} (h : lo ≤ hi) : lo ≤ qclamp x lo hi :=
  le_min (le_max_right _ _) h

theorem qclamp_nonneg {x hi : ℚ} (h : 0 ≤ hi) : 0 ≤ qclamp x 0 hi := le_qclamp h

/-! ## core.rs — `AffectiveState` and `AffectiveCore` -/

/-- Embedding of `AffectiveState` (src/core.rs): four bounded scalar affect
dimensions. -/
structure AffectiveState where
  valence : ℚ
  arousal : ℚ
  dominance : ℚ
  novelty : ℚ
deriving DecidableEq

namespace AffectiveState

/-- Embedding of `AffectiveState::new_neutral`. -/
def new_neutral : AffectiveState :=
  { valence := 0, arousal := 3/10, dominance := 1/10, novelty := 0 }

/-- Embedding of `AffectiveState::apply_change`: add a delta to each field and
clamp to the declared range. -/
def apply_change (s change : AffectiveState) : AffectiveState :=
  { valence := qclamp (s.valence + change.valence) (-1) 1
    arousal := qclamp (s.arousal + change.arousal) 0 1
    dominance := qclamp (s.dominance + change.dominance) (-1) 1
    novelty := qclamp (s.novelty + change.novelty) (-1) 1 }

/-- Embedding of `AffectiveState::decay`: move every field toward the baseline
by a rate that is clamped to `[0, 1]` first. -/
def decay (s baseline : AffectiveState) (rate : ℚ) : AffectiveState :=
  let r := qclamp rate 0 1
  { valence := s.valence + (baseline.valence - s.valence) * r
    arousal := s.arousal + (baseline.arousal - s.arousal) * r
    dominance := s.dominance + (baseline.dominance - s.dominance) * r
    novelty := s.novelty + (baseline.novelty - s.novelty) * r }

/-- The declared clamp range of each affect field: valence in `[-1,1]`,
arousal in `[0,1]`, dominance in `[-1,1]`, novelty in `[-1,1]`. -/
def in_range (s : AffectiveState) : Prop :=
  (-1 ≤ s.valence ∧ s.valence ≤ 1) ∧ (0 ≤ s.arousal ∧ s.arousal ≤ 1) ∧
    (-1 ≤ s.dominance ∧ s.dominance ≤ 1) ∧ (-1 ≤ s.novelty ∧ s.novelty ≤ 1)

instance (s : AffectiveState) : Decidable s.in_range := by
  unfold in_range; infer_instance

theorem apply_change_in_range (s change : AffectiveState) :
    (s.apply_change change).in_range := by
  refine ⟨⟨?_, ?_⟩, ⟨?_, ?_⟩, ⟨?_, ?_⟩, ⟨?_, ?_⟩⟩ <;>
    simp only [apply_change] <;>
    first
      | exact qclamp_le
      | exact le_qclamp (by norm_num)

theorem decay_in_range {s baseline : AffectiveState} (rate : ℚ)
    (hs : s.in_range) (hb : baseline.in_range) :
    (s.decay baseline rate).in_range := by
  obtain ⟨⟨hv1, hv2⟩, ⟨ha1, ha2⟩, ⟨hd1, hd2⟩, ⟨hn1, hn2⟩⟩ := hs
  obtain ⟨⟨bv1, bv2⟩, ⟨ba1, ba2⟩, ⟨bd1, bd2⟩, ⟨bn1, bn2⟩⟩ := hb
  have hr0 : (0 : ℚ) ≤ qclamp rate 0 1 := qclamp_nonneg (by norm_num)
  have hr1 : qclamp rate 0 1 ≤ 1 := qclamp_le
  refine ⟨⟨?_, ?_⟩, ⟨?_, ?_⟩, ⟨?_, ?_⟩, ⟨?_, ?_⟩⟩ <;>
    simp only [decay] <;> nlinarith

end AffectiveState

/-- Embedding of `AffectiveConfig` (src/core.rs). -/
structure AffectiveConfig where
  baseline_state : AffectiveState
  decay_rate : ℚ
  empathy_factor : ℚ

/-- Embedding of `AffectiveConfig::default`. -/
def AffectiveConfig.default_config : AffectiveConfig :=
  { baseline_state := AffectiveState.new_neutral
    decay_rate := 15/100
    empathy_factor := 5/10 }

/-- Embedding of `AffectiveCore` (src/core.rs). -/
structure AffectiveCore where
  current_state : AffectiveState
  config : AffectiveConfig
  emotional_history : List String

/-- Embedding of `AffectiveCore::new`. -/
def AffectiveCore.new (config : AffectiveConfig) : AffectiveCore :=
  { current_state := config.baseline_state, config := config
    emotional_history := [] }

/-- Embedding of `AffectiveCore::process_emotion`.  The out-of-scope
`emotion_to_affective_change` mapping (an opaque value transform per the
design) is represented by its output `change`; `details` stands for the
debug-formatted emotion pushed into the history. -/
def AffectiveCore.process_emotion (core : AffectiveCore)
    (change : AffectiveState) (details : String) : AffectiveCore :=
  let empathy := core.config.empathy_factor
  let blended_change : AffectiveState :=
    { valence := change.valence * empathy
      arousal := change.arousal * empathy
      dominance := change.dominance * empathy
      novelty := change.novelty * empathy }
  let history := core.emotional_history ++ [details]
  { core with
    current_state := core.current_state.apply_change blended_change
    emotional_history := if 10 < history.length then history.drop 1 else history }

/-- Embedding of `AffectiveCore::regulate_emotion`. -/
def AffectiveCore.regulate_emotion (core : AffectiveCore) : AffectiveCore :=
  { core with
    current_state :=
      core.current_state.decay core.config.baseline_state core.config.decay_rate }

/-- A mutation of the affect container: an external emotion-processing call
(`process_emotion`) or a periodic decay toward baseline (`regulate_emotion`). -/
inductive AffectiveOp where
  | process_emotion (change : AffectiveState) (details : String)
  | regulate_emotion

/-- Apply one affect mutation. -/
def AffectiveCore.step (core : AffectiveCore) : AffectiveOp → AffectiveCore
  | .process_emotion change details => core.process_emotion change details
  | .regulate_emotion => core.regulate_emotion

/-- Run a sequence of affect mutations. -/
def AffectiveCore.run (core : AffectiveCore) (ops : List AffectiveOp) :
    AffectiveCore :=
  ops.foldl AffectiveCore.step core

theorem AffectiveCore.step_in_range {core : AffectiveCore}
    (hb : core.config.baseline_state.in_range)
    (hc : core.current_state.in_range) (op : AffectiveOp) :
    (core.step op).current_state.in_range := by
  cases op with
  | process_emotion change details =>
      exact AffectiveState.apply_change_in_range _ _
  | regulate_emotion =>
      exact AffectiveState.decay_in_range _ hc hb

theorem AffectiveCore.step_config (core : AffectiveCore) (op : AffectiveOp) :
    (core.step op).config = core.config := by
  cases op <;> rfl

/-- Claim C6: starting from a state and baseline with every field in range,
every field of the affect state remains within its declared clamp range after
each operation of any mutation sequence (`process_emotion` deltas applied via
`apply_change`, and `regulate_emotion` decay toward the baseline with a
clamped rate). -/
theorem C6_affect_fields_stay_clamped (core : AffectiveCore)
    (hb : core.config.baseline_state.in_range)
    (hc : core.current_state.in_range) (ops : List AffectiveOp) :
    (core.run ops).current_state.in_range := by
  induction ops generalizing core with
  | nil => exact hc
  | cons op rest ih =>
      have hstep := AffectiveCore.step_in_range hb hc op
      have hcfg := AffectiveCore.step_config core op
      exact ih (core.step op) (by rw [hcfg]; exact hb) hstep

/-- Witness for C6 at a concrete input: the default core (neutral baseline,
all fields in range), one emotion delta followed by one regulation step. -/
theorem C6_affect_fields_stay_clamped_witness :
    ((AffectiveCore.new AffectiveConfig.default_config).run
      [AffectiveOp.process_emotion
        { valence := 6/10, arousal := 4/10, dominance := 2/10, novelty := 1/10 }
        "Joy", AffectiveOp.regulate_emotion]).current_state.in_range :=
  C6_affect_fields_stay_clamped _
    (by norm_num [AffectiveCore.new, AffectiveConfig.default_config,
      AffectiveState.new_neutral, AffectiveState.in_range])
    (by norm_num [AffectiveCore.new, AffectiveConfig.default_config,
      AffectiveState.new_neutral, AffectiveState.in_range]) _

/-! ## continuous_mind.rs — `MentalActivity` and the Activity Journal -/

/-- Embedding of `SpontaneousThought` (src/continuous_mind.rs). -/
inductive SpontaneousThought where
  | self_reflection (content : String)
  | goal_reassessment (content : String)
  | memory_recall (content : String)
  | creative_insight (content : String)
  | emotional_processing (content : String)
  | curiosity_driven (content : String)
  | existential_wondering (content : String)
  | error_recovery (content : String)
  | attention_shift (content : String)
  | system_integration (content : String)
deriving DecidableEq

/-- Embedding of `MentalActivity` (src/continuous_mind.rs).  Timestamps are
whole minutes (`ℤ`): `recency_score` reads the age through
`Duration::num_minutes()`, so only whole minutes matter. -/
structure MentalActivity where
  thought : SpontaneousThought
  intensity : ℚ
  timestamp : ℤ
  triggered_by : Option String
deriving DecidableEq

namespace MentalActivity

/-- Embedding of `MentalActivity::recency_score` at current time `now`:
`max (1 - age_minutes / 30) 0`. -/
def recency_score (now : ℤ) (a : MentalActivity) : ℚ :=
  let age_minutes : ℚ := ((now - a.timestamp : ℤ) : ℚ)
  max (1 - age_minutes / 30) 0

/-- Embedding of `MentalActivity::relevance_score` at current time `now`:
`intensity * 0.7 + recency_score * 0.3`. -/
def relevance_score (now : ℤ) (a : MentalActivity) : ℚ :=
  a.intensity * (7/10) + a.recency_score now * (3/10)

end MentalActivity

/-- The comparator the journal sorts by (descending relevance): `a` comes
before `b` when `b`'s relevance is at most `a`'s.  This is the embedding of
`|a, b| b.relevance_score().partial_cmp(&a.relevance_score()).unwrap()`. -/
def relevance_ge (now : ℤ) (a b : MentalActivity) : Prop :=
  b.relevance_score now ≤ a.relevance_score now

instance (now : ℤ) : DecidableRel (relevance_ge now) := fun a b =>
  inferInstanceAs (Decidable (b.relevance_score now ≤ a.relevance_score now))

instance (now : ℤ) : IsTotal MentalActivity (relevance_ge now) :=
  ⟨fun a b => le_total (b.relevance_score now) (a.relevance_score now)⟩

instance (now : ℤ) : IsTrans MentalActivity (relevance_ge now) :=
  ⟨fun _ _ _ h1 h2 => le_trans h2 h1⟩

/-- Embedding of `ContinuousMind::add_spontaneous_thought`'s journal update
(the same push/sort/truncate logic also appears in
`generate_enhanced_spontaneous_thought`): push the activity; if the journal
now holds more than 100 entries, sort descending by relevance (stable) and
keep the top 50. -/
def add_spontaneous_thought (now : ℤ) (journal : List MentalActivity)
    (activity : MentalActivity) : List MentalActivity :=
  let thoughts := journal ++ [activity]
  if 100 < thoughts.length then
    (List.insertionSort (relevance_ge now) thoughts).take 50
  else thoughts

/-- Embedding of `ContinuousMind::get_recent_thoughts`:
`thoughts.iter().rev().take(count)`. -/
def get_recent_thoughts (journal : List MentalActivity) (count : ℕ) :
    List MentalActivity :=
  journal.reverse.take count

/-- Embedding of `ContinuousMind::get_most_relevant_thoughts`. -/
def get_most_relevant_thoughts (now : ℤ) (journal : List MentalActivity)
    (count : ℕ) : List MentalActivity :=
  (List.insertionSort (relevance_ge now) journal).take count

/-- Claim C10: for an activity whose intensity lies in `[0,1]` and whose
timestamp is not in the future, `recency_score` and `relevance_score` are
both in `[0,1]`, and any two such activities are comparable under the
journal's relevance comparator (so the sort comparator is total; under this
exact-arithmetic embedding no NaN can arise). -/
theorem C10_relevance_scores_bounded (now : ℤ) (a : MentalActivity)
    (hi0 : 0 ≤ a.intensity) (hi1 : a.intensity ≤ 1)
    (ht : a.timestamp ≤ now) :
    (0 ≤ a.recency_score now ∧ a.recency_score now ≤ 1) ∧
      (0 ≤ a.relevance_score now ∧ a.relevance_score now ≤ 1) ∧
      ∀ b : MentalActivity, relevance_ge now a b ∨ relevance_ge now b a := by
  have hage : (0 : ℚ) ≤ ((now - a.timestamp : ℤ) : ℚ) := by
    exact_mod_cast Int.sub_nonneg.mpr ht
  have hr0 : 0 ≤ a.recency_score now := le_max_right _ _
  have hr1 : a.recency_score now ≤ 1 := by
    refine max_le ?_ (by norm_num)
    nlinarith
  refine ⟨⟨hr0, hr1⟩,
    ⟨by rw [MentalActivity.relevance_score]; nlinarith,
      by rw [MentalActivity.relevance_score]; nlinarith⟩, ?_⟩
  intro b
  exact (le_total (b.relevance_score now) (a.relevance_score now)).imp id id

/-- Witness for C10 at a concrete input: intensity `1/2`, timestamp `now`. -/
theorem C10_relevance_scores_bounded_witness :
    (0 ≤ (MentalActivity.mk (.memory_recall "") (1/2) 0 none).recency_score 0 ∧
        (MentalActivity.mk (.memory_recall "") (1/2) 0 none).recency_score 0 ≤ 1) ∧
      (0 ≤ (MentalActivity.mk (.memory_recall "") (1/2) 0 none).relevance_score 0 ∧
        (MentalActivity.mk (.memory_recall "") (1/2) 0 none).relevance_score 0 ≤ 1) ∧
      ∀ b : MentalActivity, relevance_ge 0 (MentalActivity.mk (.memory_recall "") (1/2) 0 none) b ∨
        relevance_ge 0 b (MentalActivity.mk (.memory_recall "") (1/2) 0 none) :=
  C10_relevance_scores_bounded 0 _ (by norm_num) (by norm_num) (by norm_num)

/-- Claim C9: the recent-thoughts read returns exactly the last `n` journal
entries by insertion order (the returned list is that suffix reversed, most
recent first). -/
theorem C9_recent_thoughts_are_last_n (journal : List MentalActivity)
    (n : ℕ) :
    (get_recent_thoughts journal n).reverse =
      journal.drop (journal.length - n) := by
  rw [get_recent_thoughts, ← List.rtake_eq_reverse_take_reverse, List.rtake]

/-- Entry #50 of the C4 scenario: intensity `0.95`, timestamp `now`. -/
def c4_special : MentalActivity :=
  { thought := .creative_insight "", intensity := 95/100, timestamp := 0
    triggered_by := none }

/-- The other 100 entries of the C4 scenario: intensity `0.1`, 29 minutes
old. -/
def c4_filler : MentalActivity :=
  { thought := .memory_recall "", intensity := 1/10, timestamp := -29
    triggered_by := none }

/-- The C4 scenario journal before the 101st insertion: 100 entries whose
50th is `c4_special`. -/
def c4_journal : List MentalActivity :=
  List.replicate 49 c4_filler ++ c4_special :: List.replicate 50 c4_filler

/-- Claim C4: (general part) any insertion that pushes the journal past its
capacity of 100 leaves exactly 50 entries that together with the dropped ones
permute the pre-truncation journal, every retained entry scoring at least
every dropped one under the relevance formula at truncation time; (scenario)
inserting 101 entries where entry #50 has intensity `0.95` and timestamp
`now` while the rest have intensity `0.1` and are 29 minutes old retains
entry #50. -/
theorem C4_truncation_keeps_topK_by_relevance :
    (∀ (now : ℤ) (journal : List MentalActivity) (a : MentalActivity),
      100 ≤ journal.length →
      ∃ dropped,
        (add_spontaneous_thought now journal a).length = 50 ∧
        (add_spontaneous_thought now journal a ++ dropped).Perm (journal ++ [a]) ∧
        ∀ x ∈ add_spontaneous_thought now journal a, ∀ y ∈ dropped,
          y.relevance_score now ≤ x.relevance_score now) ∧
    c4_special ∈ add_spontaneous_thought 0 c4_journal c4_filler := by
  have general : ∀ (now : ℤ) (journal : List MentalActivity) (a : MentalActivity),
      100 ≤ journal.length →
      ∃ dropped,
        (add_spontaneous_thought now journal a).length = 50 ∧
        (add_spontaneous_thought now journal a ++ dropped).Perm (journal ++ [a]) ∧
        ∀ x ∈ add_spontaneous_thought now journal a, ∀ y ∈ dropped,
          y.relevance_score now ≤ x.relevance_score now := by
    intro now journal a h
    have hlen : 100 < (journal ++ [a]).length := by
      simp only [List.length_append, List.length_singleton]
      omega
    have hadd : add_spontaneous_thought now journal a =
        (List.insertionSort (relevance_ge now) (journal ++ [a])).take 50 := by
      rw [add_spontaneous_thought, if_pos hlen]
    refine ⟨(List.insertionSort (relevance_ge now) (journal ++ [a])).drop 50,
      ?_, ?_, ?_⟩
    · rw [hadd, List.length_take,
        List.length_insertionSort]
      simp only [List.length_append, List.length_singleton]
      omega
    · rw [hadd, List.take_append_drop]
      exact List.perm_insertionSort _ _
    · intro x hx y hy
      rw [hadd] at hx
      have hsorted :
          (List.insertionSort (relevance_ge now) (journal ++ [a])).Pairwise
            (relevance_ge now) :=
        List.sorted_insertionSort (relevance_ge now) (journal ++ [a])
      rw [← List.take_append_drop 50
        (List.insertionSort (relevance_ge now) (journal ++ [a]))] at hsorted
      exact (List.pairwise_append.mp hsorted).2.2 x hx y hy
  refine ⟨general, ?_⟩
  obtain ⟨dropped, hlen, hperm, hmin⟩ := general 0 c4_journal c4_filler
    (by simp [c4_journal])
  by_contra hnot
  have hmem_all : c4_special ∈ c4_journal ++ [c4_filler] := by
    simp [c4_journal]
  have hmem2 : c4_special ∈ add_spontaneous_thought 0 c4_journal c4_filler ++ dropped :=
    hperm.symm.subset hmem_all
  have hdropped : c4_special ∈ dropped := by
    rcases List.mem_append.mp hmem2 with h | h
    · exact absurd h hnot
    · exact h
  have hne : add_spontaneous_thought 0 c4_journal c4_filler ≠ [] := by
    intro h
    rw [h] at hlen
    simp at hlen
  obtain ⟨x, hx⟩ := List.exists_mem_of_ne_nil _ hne
  have hxle := hmin x hx c4_special hdropped
  have hxmem : x ∈ c4_journal ++ [c4_filler] :=
    hperm.subset (List.mem_append_left _ hx)
  have hxcases : x = c4_special ∨ x = c4_filler := by
    rcases List.mem_append.mp hxmem with h | h
    · rw [c4_journal] at h
      rcases List.mem_append.mp h with h | h
      · exact Or.inr (List.eq_of_mem_replicate h)
      · rcases List.mem_cons.mp h with h | h
        · exact Or.inl h
        · exact Or.inr (List.eq_of_mem_replicate h)
    · exact Or.inr (List.mem_singleton.mp h)
  rcases hxcases with rfl | rfl
  · exact hnot hx
  · rw [MentalActivity.relevance_score, MentalActivity.relevance_score,
      MentalActivity.recency_score, MentalActivity.recency_score,
      c4_special, c4_filler] at hxle
    norm_num at hxle

/-! ## continuous_mind.rs — `BackgroundTask` and `TaskScheduler` -/

/-- Embedding of `BackgroundTask` (src/continuous_mind.rs). -/
inductive BackgroundTask where
  | deep_reflection
  | goal_reassessment
  | emotional_regulation
  | attention_update
  | spontaneous_thought
  | error_recovery (msg : String)
  | memory_consolidation
  | system_health_check
  | creative_incubation
  | social_context_analysis
deriving DecidableEq

/-- Embedding of `BackgroundTask::priority` (higher = more important). -/
def BackgroundTask.priority : BackgroundTask → ℚ
  | .error_recovery _ => 1
  | .emotional_regulation => 9/10
  | .deep_reflection => 8/10
  | .system_health_check => 7/10
  | .goal_reassessment => 6/10
  | .attention_update => 5/10
  | .memory_consolidation => 4/10
  | .spontaneous_thought => 3/10
  | .creative_incubation => 3/10
  | .social_context_analysis => 2/10

/-- Embedding of `std::mem::discriminant` equality on `BackgroundTask`:
variants match regardless of payload. -/
def same_kind : BackgroundTask → BackgroundTask → Bool
  | .deep_reflection, .deep_reflection => true
  | .goal_reassessment, .goal_reassessment => true
  | .emotional_regulation, .emotional_regulation => true
  | .attention_update, .attention_update => true
  | .spontaneous_thought, .spontaneous_thought => true
  | .error_recovery _, .error_recovery _ => true
  | .memory_consolidation, .memory_consolidation => true
  | .system_health_check, .system_health_check => true
  | .creative_incubation, .creative_incubation => true
  | .social_context_analysis, .social_context_analysis => true
  | _, _ => false

/-- A queue entry: the task together with the `Instant` it was scheduled,
embedded as a monotonically increasing tick. -/
abbrev TaskEntry := BackgroundTask × ℕ

/-- The comparator `pending_tasks` is sorted by (descending per-variant
priority): the embedding of
`|a, b| b.0.priority().partial_cmp(&a.0.priority()).unwrap()`. -/
def task_priority_ge (a b : TaskEntry) : Prop :=
  b.1.priority ≤ a.1.priority

instance : DecidableRel task_priority_ge := fun a b =>
  inferInstanceAs (Decidable (b.1.priority ≤ a.1.priority))

instance : IsTotal TaskEntry task_priority_ge :=
  ⟨fun a b => le_total b.1.priority a.1.priority⟩

instance : IsTrans TaskEntry task_priority_ge :=
  ⟨fun _ _ _ h1 h2 => le_trans h2 h1⟩

/-- Strict queue order: descending priority, ties resolved by scheduling
order (earlier tick first).  A stable descending sort of a queue whose
equal-priority entries already appear in tick order is `Pairwise task_lex`. -/
def task_lex (a b : TaskEntry) : Prop :=
  b.1.priority < a.1.priority ∨ (a.1.priority = b.1.priority ∧ a.2 < b.2)

theorem task_lex_of_eq_lt {x y : TaskEntry} (hlex : task_lex x y)
    (heq : x.1.priority = y.1.priority) : x.2 < y.2 := by
  rcases hlex with h | ⟨_, h⟩
  · exact absurd heq (ne_of_gt h)
  · exact h

/-- Inserting an entry whose tick exceeds that of every equal-priority entry
into a `task_lex`-sorted list keeps the list `task_lex`-sorted. -/
theorem orderedInsert_task_lex {a : TaskEntry} :
    ∀ {l : List TaskEntry}, l.Pairwise task_lex →
    (∀ y ∈ l, a.1.priority = y.1.priority → a.2 < y.2) →
    (l.orderedInsert task_priority_ge a).Pairwise task_lex := by
  intro l
  induction l with
  | nil => intro _ _; simp [List.orderedInsert]
  | cons b t ih =>
      intro hl ha
      rw [List.orderedInsert]
      by_cases hab : task_priority_ge a b
      · rw [if_pos hab]
        refine List.Pairwise.cons ?_ hl
        intro z hz
        rcases List.mem_cons.mp hz with rfl | hzt
        · rcases lt_or_eq_of_le hab with h | h
          · exact Or.inl h
          · exact Or.inr ⟨h.symm, ha z (List.mem_cons_self _ _) h.symm⟩
        · have hbz := (List.pairwise_cons.mp hl).1 z hzt
          have hzb : z.1.priority ≤ b.1.priority := by
            rcases hbz with h | ⟨h, _⟩
            · exact le_of_lt h
            · exact le_of_eq h.symm
          rcases lt_or_eq_of_le (le_trans hzb hab) with h | h
          · exact Or.inl h
          · exact Or.inr ⟨h.symm, ha z (List.mem_cons_of_mem _ hzt) h.symm⟩
      · rw [if_neg hab]
        have hba : a.1.priority < b.1.priority := by
          rw [task_priority_ge] at hab
          exact lt_of_not_le hab
        refine List.Pairwise.cons ?_
          (ih (List.pairwise_cons.mp hl).2
            (fun y hy h => ha y (List.mem_cons_of_mem _ hy) h))
        intro z hz
        rcases (List.mem_orderedInsert task_priority_ge).mp hz with rfl | hzt
        · exact Or.inl hba
        · exact (List.pairwise_cons.mp hl).1 z hzt

/-- A stable descending-priority sort of a list whose equal-priority entries
appear in increasing tick order produces a `task_lex`-sorted list. -/
theorem insertionSort_task_lex :
    ∀ {l : List TaskEntry},
    l.Pairwise (fun x y => x.1.priority = y.1.priority → x.2 < y.2) →
    (l.insertionSort task_priority_ge).Pairwise task_lex := by
  intro l
  induction l with
  | nil => intro _; simp [List.insertionSort]
  | cons a t ih =>
      intro hl
      rw [List.insertionSort]
      exact orderedInsert_task_lex (ih (List.pairwise_cons.mp hl).2)
        (fun y hy h =>
          (List.pairwise_cons.mp hl).1 y
            ((List.mem_insertionSort task_priority_ge).mp hy) h)

/-- Embedding of `TaskScheduler` (src/continuous_mind.rs).  `clock` models
`Instant::now()`: it strictly increases across operations and stamps each
scheduled entry. -/
structure TaskScheduler where
  pending_tasks : List TaskEntry
  running_tasks : List TaskEntry
  completed_tasks : List TaskEntry
  max_concurrent : ℕ
  clock : ℕ
deriving DecidableEq

/-- Embedding of `TaskScheduler::new`. -/
def TaskScheduler.new : TaskScheduler :=
  { pending_tasks := [], running_tasks := [], completed_tasks := []
    max_concurrent := 3, clock := 0 }

/-- Embedding of `TaskScheduler::schedule_task`: push, then stable-sort the
whole pending queue by descending priority. -/
def TaskScheduler.schedule_task (s : TaskScheduler) (task : BackgroundTask) :
    TaskScheduler :=
  { s with
    pending_tasks :=
      (s.pending_tasks ++ [(task, s.clock)]).insertionSort task_priority_ge
    clock := s.clock + 1 }

/-- Embedding of `TaskScheduler::get_next_task`: pop the head of pending into
running only when below the concurrency cap. -/
def TaskScheduler.get_next_task (s : TaskScheduler) :
    Option BackgroundTask × TaskScheduler :=
  match s.pending_tasks with
  | [] => (none, s)
  | e :: rest =>
      if s.running_tasks.length < s.max_concurrent then
        (some e.1,
          { s with pending_tasks := rest
                   running_tasks := s.running_tasks ++ [e] })
      else (none, s)

/-- Embedding of `Vec::position` + `Vec::remove` on the running list: remove
the first entry whose task matches `task` by discriminant. -/
def remove_first_matching (task : BackgroundTask) :
    List TaskEntry → Option TaskEntry × List TaskEntry
  | [] => (none, [])
  | e :: rest =>
      if same_kind e.1 task then (some e, rest)
      else
        let r := remove_first_matching task rest
        (r.1, e :: r.2)

/-- Embedding of `TaskScheduler::complete_task`: move the first running entry
of the same kind to completed (evicting the oldest completed entry past 50);
no matching entry means no change. -/
def TaskScheduler.complete_task (s : TaskScheduler) (task : BackgroundTask) :
    TaskScheduler :=
  match remove_first_matching task s.running_tasks with
  | (none, _) => s
  | (some e, rest) =>
      let completed := s.completed_tasks ++ [e]
      { s with
        running_tasks := rest
        completed_tasks := if 50 < completed.length then completed.drop 1 else completed }

/-- One scheduler operation. -/
inductive SchedulerOp where
  | schedule (task : BackgroundTask)
  | next
  | complete (task : BackgroundTask)

/-- Apply one scheduler operation. -/
def sched_step (s : TaskScheduler) : SchedulerOp → TaskScheduler
  | .schedule task => s.schedule_task task
  | .next => s.get_next_task.2
  | .complete task => s.complete_task task

/-- Run a sequence of scheduler operations from the initial scheduler. -/
def sched_run (ops : List SchedulerOp) : TaskScheduler :=
  ops.foldl sched_step TaskScheduler.new

/-- The scheduler invariant: concurrency cap respected, pending sorted by
descending priority with ties in scheduling order, and every pending tick
below the clock. -/
def SchedInv (s : TaskScheduler) : Prop :=
  s.running_tasks.length ≤ s.max_concurrent ∧
    s.pending_tasks.Pairwise task_lex ∧
    ∀ e ∈ s.pending_tasks, e.2 < s.clock

theorem remove_first_matching_length (task : BackgroundTask) :
    ∀ l : List TaskEntry, (remove_first_matching task l).2.length ≤ l.length := by
  intro l
  induction l with
  | nil => simp [remove_first_matching]
  | cons e rest ih =>
      rw [remove_first_matching]
      by_cases h : same_kind e.1 task
      · rw [if_pos h]
        exact Nat.le_succ _
      · rw [if_neg h]
        simpa using ih

theorem sched_step_inv {s : TaskScheduler} (hs : SchedInv s)
    (op : SchedulerOp) : SchedInv (sched_step s op) := by
  obtain ⟨hrun, hsort, hclock⟩ := hs
  cases op with
  | schedule task =>
      refine ⟨hrun, ?_, ?_⟩
      · apply insertionSort_task_lex
        rw [List.pairwise_append]
        refine ⟨hsort.imp ?_, List.pairwise_singleton _ _, ?_⟩
        · intro a b hab heq
          exact task_lex_of_eq_lt hab heq
        · intro x hx y hy _
          rw [List.mem_singleton.mp hy]
          exact hclock x hx
      · intro e he
        have he2 : e ∈ s.pending_tasks ++ [(task, s.clock)] :=
          (List.mem_insertionSort task_priority_ge).mp he
        rcases List.mem_append.mp he2 with h | h
        · exact Nat.lt_succ_of_lt (hclock e h)
        · rw [List.mem_singleton.mp h]
          exact Nat.lt_succ_self _
  | next =>
      rw [sched_step, TaskScheduler.get_next_task]
      split
      next => exact ⟨hrun, hsort, hclock⟩
      next e rest heq =>
        split
        next hlen =>
          refine ⟨?_, ?_, ?_⟩
          · simp only [List.length_append, List.length_singleton]
            omega
          · exact (List.pairwise_cons.mp (heq ▸ hsort)).2
          · intro x hx
            exact hclock x (heq ▸ List.mem_cons_of_mem _ hx)
        next hlen => exact ⟨hrun, hsort, hclock⟩
  | complete task =>
      rw [sched_step, TaskScheduler.complete_task]
      cases hr : remove_first_matching task s.running_tasks with
      | mk found rest =>
          cases found with
          | none => exact ⟨hrun, hsort, hclock⟩
          | some e =>
              refine ⟨?_, hsort, hclock⟩
              have := remove_first_matching_length task s.running_tasks
              rw [hr] at this
              exact le_trans this hrun

theorem sched_foldl_inv (ops : List SchedulerOp) :
    ∀ s : TaskScheduler, SchedInv s → SchedInv (ops.foldl sched_step s) := by
  induction ops with
  | nil => intro s hs; exact hs
  | cons op rest ih => intro s hs; exact ih _ (sched_step_inv hs op)

/-- Claim C3: from the initial scheduler, after any sequence of
`schedule_task` / `get_next_task` / `complete_task` operations, the running
list never exceeds `max_concurrent` and the pending list is sorted by
descending per-variant priority with equal-priority tasks in scheduling
(insertion) order; as every prefix of a sequence is itself a sequence, the
invariant holds before and after every call. -/
theorem C3_scheduler_invariants (ops : List SchedulerOp) :
    (sched_run ops).running_tasks.length ≤ (sched_run ops).max_concurrent ∧
      (sched_run ops).pending_tasks.Pairwise task_lex := by
  have hinit : SchedInv TaskScheduler.new := by
    refine ⟨by simp [TaskScheduler.new], by simp [TaskScheduler.new], ?_⟩
    intro e he
    simp [TaskScheduler.new] at he
  have h : SchedInv (sched_run ops) := sched_foldl_inv ops _ hinit
  exact ⟨h.1, h.2.1⟩

theorem remove_first_matching_of_none {task : BackgroundTask} :
    ∀ {l : List TaskEntry}, (∀ e ∈ l, same_kind e.1 task = false) →
    remove_first_matching task l = (none, l) := by
  intro l
  induction l with
  | nil => intro _; rfl
  | cons e rest ih =>
      intro h
      rw [remove_first_matching, if_neg (by
        rw [h e (List.mem_cons_self _ _)]; exact Bool.false_ne_true),
        ih (fun x hx => h x (List.mem_cons_of_mem _ hx))]

theorem remove_first_matching_of_unique {task : BackgroundTask} :
    ∀ {l : List TaskEntry},
    l.countP (fun e => same_kind e.1 task) = 1 →
    ∃ e rest, remove_first_matching task l = (some e, rest) ∧
      ∀ x ∈ rest, same_kind x.1 task = false := by
  intro l
  induction l with
  | nil => intro h; simp [List.countP_nil] at h
  | cons e rest ih =>
      intro h
      rw [List.countP_cons] at h
      by_cases he : same_kind e.1 task
      · rw [if_pos he] at h
        have hrest : rest.countP (fun x => same_kind x.1 task) = 0 := by omega
        refine ⟨e, rest, ?_, ?_⟩
        · rw [remove_first_matching, if_pos he]
        · intro x hx
          have := List.countP_eq_zero.mp hrest x hx
          simpa using this
      · rw [if_neg he] at h
        simp only [Nat.add_zero] at h
        obtain ⟨e', rest', hrem, hall⟩ := ih h
        refine ⟨e', e :: rest', ?_, ?_⟩
        · rw [remove_first_matching, if_neg he, hrem]
        · intro x hx
          rcases List.mem_cons.mp hx with rfl | hx
          · simpa using he
          · exact hall x hx

/-- Claim C8: completing a task kind with no matching running entry (matching
is by variant discriminant) leaves the scheduler unchanged; when exactly one
running entry matches, a second `complete_task` for the same kind is a no-op
(no double-eviction).  Both operations are total functions, so no panic is
possible in the model. -/
theorem C8_complete_task_no_match_noop (s : TaskScheduler)
    (task : BackgroundTask) :
    ((∀ e ∈ s.running_tasks, same_kind e.1 task = false) →
      s.complete_task task = s) ∧
    (s.running_tasks.countP (fun e => same_kind e.1 task) = 1 →
      (s.complete_task task).complete_task task = s.complete_task task) := by
  constructor
  · intro h
    rw [TaskScheduler.complete_task, remove_first_matching_of_none h]
  · intro h
    obtain ⟨e, rest, hrem, hall⟩ := remove_first_matching_of_unique h
    have h1 : s.complete_task task =
        { s with
          running_tasks := rest
          completed_tasks :=
            if 50 < (s.completed_tasks ++ [e]).length then
              (s.completed_tasks ++ [e]).drop 1
            else s.completed_tasks ++ [e] } := by
      rw [TaskScheduler.complete_task, hrem]
    rw [h1, TaskScheduler.complete_task]
    rw [show ({ s with
          running_tasks := rest
          completed_tasks :=
            if 50 < (s.completed_tasks ++ [e]).length then
              (s.completed_tasks ++ [e]).drop 1
            else s.completed_tasks ++ [e] } : TaskScheduler).running_tasks = rest
      from rfl, remove_first_matching_of_none hall]

/-- Witness for C8 at a concrete input: one running `deep_reflection` entry;
completing `memory_consolidation` (no match) changes nothing, and after
completing `deep_reflection` once, completing it again changes nothing. -/
theorem C8_complete_task_no_match_noop_witness :
    (TaskScheduler.complete_task
        ⟨[], [(.deep_reflection, 0)], [], 3, 1⟩ .memory_consolidation =
      ⟨[], [(.deep_reflection, 0)], [], 3, 1⟩) ∧
    ((TaskScheduler.complete_task
        ⟨[], [(.deep_reflection, 0)], [], 3, 1⟩ .deep_reflection).complete_task
          .deep_reflection =
      TaskScheduler.complete_task
        ⟨[], [(.deep_reflection, 0)], [], 3, 1⟩ .deep_reflection) :=
  ⟨(C8_complete_task_no_match_noop _ _).1 (by decide),
    (C8_complete_task_no_match_noop _ _).2 (by decide)⟩

/-! ## continuous_mind.rs — error tracking and the health-check loop -/

/-- The slice of `ContinuousMind` state that the error-tracking and
health-check logic reads and writes: the error counter, the mental activity
level, the task scheduler, the journal, and the bounded error-category log.
`now` is the current journal timestamp in minutes. -/
structure MindState where
  error_count : ℕ
  mental_activity_level : ℚ
  task_scheduler : TaskScheduler
  spontaneous_thoughts : List MentalActivity
  error_types : List String
  now : ℤ
deriving DecidableEq

/-- Discriminant test for `BackgroundTask::ErrorRecovery`. -/
def is_error_recovery : BackgroundTask → Bool
  | .error_recovery _ => true
  | _ => false

/-- Number of `ErrorRecovery` entries in a task list. -/
def count_error_recovery (l : List TaskEntry) : ℕ :=
  l.countP (fun e => is_error_recovery e.1)

/-- Embedding of `ContinuousMind::monitor_system_health`: when the error
count exceeds 5, schedule one `ErrorRecovery` task; when the mental activity
level exceeds 0.9, schedule an `EmotionalRegulation` task.  The error count
is not modified here. -/
def monitor_system_health (m : MindState) : MindState :=
  let m1 :=
    if 5 < m.error_count then
      { m with
        task_scheduler := m.task_scheduler.schedule_task
          (.error_recovery ("High error count: " ++ toString m.error_count)) }
    else m
  if 9/10 < m1.mental_activity_level then
    { m1 with
      task_scheduler := m1.task_scheduler.schedule_task .emotional_regulation }
  else m1

/-- Embedding of `ContinuousMind::handle_error_recovery`: append a recovery
thought to the journal (via `add_spontaneous_thought` with intensity 0.8)
and reset the error count to zero. -/
def handle_error_recovery (m : MindState) (error : String) : MindState :=
  { m with
    spontaneous_thoughts :=
      add_spontaneous_thought m.now m.spontaneous_thoughts
        { thought := .error_recovery
            ("Implementing recovery strategy for: " ++ error)
          intensity := 8/10, timestamp := m.now
          triggered_by := some "system_generated" }
    error_count := 0 }

/-- Embedding of `ContinuousMind::handle_error`: increment the error count,
log the error category (bounded at 20), and append a recovery-flavoured
thought with intensity 0.6; `details` stands for the debug-formatted
`LlmApiError`. -/
def handle_error (m : MindState) (details : String) : MindState :=
  let error_types := m.error_types ++ [details]
  { m with
    error_count := m.error_count + 1
    error_types := if 20 < error_types.length then error_types.drop 1 else error_types
    spontaneous_thoughts :=
      add_spontaneous_thought m.now m.spontaneous_thoughts
        { thought := .error_recovery details, intensity := 6/10
          timestamp := m.now, triggered_by := some "system_generated" } }

/-- The operations of the code that touch `error_count`. -/
inductive MindOp where
  | handle_error (details : String)
  | monitor_system_health
  | handle_error_recovery (error : String)

/-- Apply one error-tracking operation. -/
def mind_step (m : MindState) : MindOp → MindState
  | .handle_error details => handle_error m details
  | .monitor_system_health => monitor_system_health m
  | .handle_error_recovery error => handle_error_recovery m error

theorem count_error_recovery_schedule (s : TaskScheduler)
    (t : BackgroundTask) :
    count_error_recovery (s.schedule_task t).pending_tasks =
      count_error_recovery s.pending_tasks +
        (if is_error_recovery t then 1 else 0) := by
  rw [TaskScheduler.schedule_task, count_error_recovery, count_error_recovery]
  rw [(List.perm_insertionSort task_priority_ge _).countP_eq]
  rw [List.countP_append]
  simp [List.countP_cons]

theorem monitor_error_count (m : MindState) :
    (monitor_system_health m).error_count = m.error_count := by
  rw [monitor_system_health]
  split <;> split <;> rfl

/-- The C1 counterexample state: error count 6 (past the threshold), low
mental activity, empty scheduler. -/
def c1_state : MindState :=
  { error_count := 6, mental_activity_level := 0
    task_scheduler := TaskScheduler.new, spontaneous_thoughts := []
    error_types := [], now := 0 }

/-- Counterexample to claim C1 as stated: at error count 6 one
`monitor_system_health` call enqueues exactly one `ErrorRecovery` task but
leaves the error count at 6 — it does not reset it to 0. -/
theorem C1_counterexample_health_check_does_not_reset :
    count_error_recovery
        (monitor_system_health c1_state).task_scheduler.pending_tasks = 1 ∧
      (monitor_system_health c1_state).error_count = 6 ∧ (6 : ℕ) ≠ 0 := by
  refine ⟨?_, ?_, by omega⟩
  · rw [monitor_system_health]
    norm_num [c1_state]
    rw [count_error_recovery_schedule]
    norm_num [c1_state, TaskScheduler.new, count_error_recovery, is_error_recovery]
  · rw [monitor_error_count]
    rfl

/-- Claim C1 as amended: when the error count exceeds the threshold (5), one
health-check invocation enqueues exactly one `ErrorRecovery` task and leaves
the error count unchanged; a health-check invocation with error count 0
enqueues no `ErrorRecovery` task; the count is reset to 0 when the
`ErrorRecovery` task is processed (`handle_error_recovery`), and among the
operations that touch the counter this reset is the only way a positive
counter returns to zero. -/
theorem C1_amended_reset_happens_in_recovery_handler (m : MindState) :
    (5 < m.error_count →
      count_error_recovery
          (monitor_system_health m).task_scheduler.pending_tasks =
        count_error_recovery m.task_scheduler.pending_tasks + 1 ∧
      (monitor_system_health m).error_count = m.error_count) ∧
    (m.error_count = 0 →
      count_error_recovery
          (monitor_system_health m).task_scheduler.pending_tasks =
        count_error_recovery m.task_scheduler.pending_tasks) ∧
    (∀ error, (handle_error_recovery m error).error_count = 0) ∧
    (∀ op, 0 < m.error_count → (mind_step m op).error_count = 0 →
      ∃ error, op = .handle_error_recovery error) := by
  refine ⟨?_, ?_, ?_, ?_⟩
  · intro h
    refine ⟨?_, monitor_error_count m⟩
    rw [monitor_system_health]
    rw [if_pos h]
    split
    · rw [count_error_recovery_schedule, count_error_recovery_schedule]
      simp [is_error_recovery]
    · rw [count_error_recovery_schedule]
      simp [is_error_recovery]
  · intro h
    rw [monitor_system_health,
      if_neg (show ¬ 5 < m.error_count by omega)]
    split
    · rw [count_error_recovery_schedule]
      simp [is_error_recovery]
    · rfl
  · intro error
    rfl
  · intro op hpos hzero
    cases op with
    | handle_error details =>
        rw [mind_step, handle_error] at hzero
        simp at hzero
    | monitor_system_health =>
        rw [mind_step, monitor_error_count] at hzero
        omega
    | handle_error_recovery error => exact ⟨error, rfl⟩

/-- Witness for C1 (amended) at a concrete input: processing the recovery
task at the counterexample state resets the counter to zero. -/
theorem C1_amended_reset_witness :
    (handle_error_recovery c1_state "High error count: 6").error_count = 0 :=
  (C1_amended_reset_happens_in_recovery_handler c1_state).2.2.1
    "High error count: 6"

/-! ## goals.rs — `Goal` and `GoalSystem` -/

/-- Embedding of `GoalCategory` (src/goals.rs). -/
inductive GoalCategory where
  | epistemic
  | social
  | self_development
  | creative
  | altruistic
  | homeostatic
deriving DecidableEq

/-- Embedding of `GoalStatus` (src/goals.rs). -/
inductive GoalStatus where
  | active
  | completed
  | abandoned
  | paused
  | failed
deriving DecidableEq

/-- Embedding of `Goal` (src/goals.rs).  The timestamp-derived id string is
embedded as a `ℕ` issued by the system's fresh-id counter; times are minutes
(`ℤ`). -/
structure Goal where
  id : ℕ
  description : String
  category : GoalCategory
  priority : ℚ
  urgency : ℚ
  progress : ℚ
  status : GoalStatus
  created_at : ℤ
  deadline : Option ℤ
  sub_goals : List ℕ
  success_criteria : List String
  obstacles : List String
  strategies : List String
  emotional_investment : ℚ
deriving DecidableEq

/-- Embedding of `Goal::new`. -/
def Goal.new (id : ℕ) (now : ℤ) (description : String)
    (category : GoalCategory) (priority : ℚ) : Goal :=
  { id := id, description := description, category := category
    priority := qclamp priority 0 1, urgency := 1/2, progress := 0
    status := .active, created_at := now, deadline := none, sub_goals := []
    success_criteria := [], obstacles := [], strategies := []
    emotional_investment := priority }

/-- Embedding of `Goal::calculate_importance` at current time `now` (minutes):
the deadline buckets are one hour (60) and one day (1440). -/
def Goal.calculate_importance (now : ℤ) (g : Goal) : ℚ :=
  let time_factor : ℚ :=
    match g.deadline with
    | some deadline =>
        if deadline - now < 60 then 1
        else if deadline - now < 1440 then 8/10
        else 1/2
    | none => 1/2
  qclamp (g.priority * (4/10) + g.urgency * (3/10) +
    g.emotional_investment * (2/10) + time_factor * (1/10)) 0 1

/-- Embedding of `Goal::should_act_on`. -/
def Goal.should_act_on (now : ℤ) (g : Goal) : Prop :=
  g.status = .active ∧ 3/10 < g.calculate_importance now

instance (now : ℤ) (g : Goal) : Decidable (g.should_act_on now) := by
  unfold Goal.should_act_on; infer_instance

/-- Embedding of `GoalSystem` (src/goals.rs).  The `HashMap<String, Goal>` is
an association list (iteration order = list order); `next_id` models the
timestamp-based id generation, strictly increasing across calls. -/
structure GoalSystem where
  goals : List (ℕ × Goal)
  current_focus : Option ℕ
  goal_formation_threshold : ℚ
  max_active_goals : ℕ
  achievement_history : List (String × ℤ)
  next_id : ℕ
deriving DecidableEq

/-- Embedding of `GoalSystem::new`. -/
def GoalSystem.new : GoalSystem :=
  { goals := [], current_focus := none, goal_formation_threshold := 4/10
    max_active_goals := 10, achievement_history := [], next_id := 0 }

/-- Embedding of `GoalSystem::calculate_motivation`. -/
def calculate_motivation (affective_state : AffectiveState) :
    GoalCategory → ℚ
  | .epistemic =>
      qclamp (affective_state.arousal * (5/10) + |affective_state.novelty| * (5/10)) 0 1
  | .social =>
      qclamp (affective_state.valence * (6/10) +
        (1 - |affective_state.dominance|) * (4/10)) 0 1
  | .self_development =>
      qclamp ((1 - affective_state.valence) * (4/10) +
        affective_state.dominance * (6/10)) 0 1
  | .creative =>
      qclamp (affective_state.valence * (6/10) + affective_state.arousal * (4/10)) 0 1
  | .altruistic =>
      qclamp (affective_state.valence * (7/10) + affective_state.dominance * (3/10)) 0 1
  | .homeostatic =>
      qclamp (affective_state.arousal * (6/10) +
        (1 - affective_state.valence) * (4/10)) 0 1

/-- Embedding of `GoalSystem::generate_default_strategies`. -/
def generate_default_strategies : GoalCategory → List String
  | .epistemic =>
      ["Ask clarifying questions", "Seek additional information sources",
        "Reflect on what I already know"]
  | .social =>
      ["Show genuine interest in others", "Share appropriate personal insights",
        "Practice empathetic listening"]
  | .self_development =>
      ["Identify specific areas for improvement", "Set measurable milestones",
        "Reflect on progress regularly"]
  | .creative =>
      ["Explore unconventional combinations",
        "Draw inspiration from diverse sources", "Embrace experimentation"]
  | .altruistic =>
      ["Understand others\x27 needs deeply", "Offer help without being asked",
        "Provide value through my unique capabilities"]
  | .homeostatic =>
      ["Identify sources of instability", "Develop coping mechanisms",
        "Seek equilibrium gradually"]

/-- Embedding of `HashMap::insert`: replace the value at an existing key,
otherwise add the entry. -/
def insert_goal : List (ℕ × Goal) → ℕ → Goal → List (ℕ × Goal)
  | [], id, g => [(id, g)]
  | e :: rest, id, g =>
      if e.1 = id then (id, g) :: rest else e :: insert_goal rest id g

/-- Embedding of `HashMap::get`. -/
def lookup_goal : List (ℕ × Goal) → ℕ → Option Goal
  | [], _ => none
  | e :: rest, id => if e.1 = id then some e.2 else lookup_goal rest id

/-- The active entries of the goal map (`values().filter(status == Active)`,
keeping the keys). -/
def GoalSystem.active_entries (s : GoalSystem) : List (ℕ × Goal) :=
  s.goals.filter (fun e => decide (e.2.status = .active))

/-- Embedding of `GoalSystem::get_active_goals`. -/
def GoalSystem.get_active_goals (s : GoalSystem) : List Goal :=
  s.active_entries.map Prod.snd

/-- The ascending-importance comparator `prune_low_priority_goals` sorts by.
-/
def importance_le (now : ℤ) (a b : ℕ × Goal) : Prop :=
  a.2.calculate_importance now ≤ b.2.calculate_importance now

instance (now : ℤ) : DecidableRel (importance_le now) := fun a b =>
  inferInstanceAs (Decidable (a.2.calculate_importance now ≤ b.2.calculate_importance now))

instance (now : ℤ) : IsTotal (ℕ × Goal) (importance_le now) :=
  ⟨fun a b => le_total (a.2.calculate_importance now) (b.2.calculate_importance now)⟩

instance (now : ℤ) : IsTrans (ℕ × Goal) (importance_le now) :=
  ⟨fun _ _ _ h1 h2 => le_trans h1 h2⟩

/-- Embedding of `GoalSystem::prune_low_priority_goals`: stable-sort the
active entries by ascending importance and demote the first one (the
earliest minimal-importance active goal) to `Abandoned`.  The source sorts
`(id, importance)` pairs; sorting the entries by the same key in the same
stable order picks the same first element. -/
def GoalSystem.prune_low_priority_goals (now : ℤ) (s : GoalSystem) :
    GoalSystem :=
  let goals_by_importance := s.active_entries.insertionSort (importance_le now)
  match goals_by_importance.head? with
  | some lowest =>
      { s with
        goals := s.goals.map (fun e =>
          if e.1 = lowest.1 then (e.1, { e.2 with status := .abandoned }) else e) }
  | none => s

/-- Embedding of `GoalSystem::form_goal`: reject when motivation is below the
formation threshold; prune first when the active count has reached the cap;
then admit the new goal (emotional investment overwritten with the
motivation, default strategies attached) under a fresh id. -/
def GoalSystem.form_goal (now : ℤ) (s : GoalSystem) (description : String)
    (category : GoalCategory) (priority : ℚ)
    (affective_state : AffectiveState) : Option ℕ × GoalSystem :=
  let motivation := calculate_motivation affective_state category
  if motivation < s.goal_formation_threshold then (none, s)
  else
    let active_count := s.active_entries.length
    let s1 :=
      if s.max_active_goals ≤ active_count then s.prune_low_priority_goals now
      else s
    let goal :=
      { Goal.new s.next_id now description category priority with
        emotional_investment := motivation
        strategies := generate_default_strategies category }
    (some s.next_id,
      { s1 with
        goals := insert_goal s1.goals s.next_id goal
        next_id := s.next_id + 1 })

/-- Embedding of `GoalSystem::update_goal_progress` (the `notes` argument
only prints and is omitted): clamp the progress; on reaching 1 mark the goal
`Completed`, record the achievement, and clear the focus when it pointed at
this goal. -/
def GoalSystem.update_goal_progress (now : ℤ) (s : GoalSystem) (goal_id : ℕ)
    (progress_delta : ℚ) : GoalSystem :=
  match lookup_goal s.goals goal_id with
  | none => s
  | some g =>
      let g1 := { g with progress := qclamp (g.progress + progress_delta) 0 1 }
      if 1 ≤ g1.progress then
        let g2 := { g1 with status := .completed }
        { s with
          goals := insert_goal s.goals goal_id g2
          achievement_history := s.achievement_history ++ [(g2.description, now)]
          current_focus :=
            if s.current_focus = some goal_id then none else s.current_focus }
      else { s with goals := insert_goal s.goals goal_id g1 }

/-- Embedding of Rust `Iterator::max_by` (the last maximal element wins
ties). -/
def last_max_by_importance (now : ℤ) : List (ℕ × Goal) → Option (ℕ × Goal)
  | [] => none
  | e :: rest =>
      match last_max_by_importance now rest with
      | none => some e
      | some m =>
          if m.2.calculate_importance now < e.2.calculate_importance now then
            some e
          else some m

/-- Embedding of `GoalSystem::determine_focus`: select the highest-importance
goal among those worth acting on, or clear the focus when there is none. -/
def GoalSystem.determine_focus (now : ℤ) (s : GoalSystem) :
    Option ℕ × GoalSystem :=
  let active_goals := s.goals.filter (fun e => decide (e.2.should_act_on now))
  match last_max_by_importance now active_goals with
  | none => (none, { s with current_focus := none })
  | some best => (some best.1, { s with current_focus := some best.1 })

theorem lookup_insert_goal_self (id : ℕ) (g : Goal) :
    ∀ l : List (ℕ × Goal), lookup_goal (insert_goal l id g) id = some g := by
  intro l
  induction l with
  | nil => simp [insert_goal, lookup_goal]
  | cons e rest ih =>
      rw [insert_goal]
      by_cases he : e.1 = id
      · rw [if_pos he, lookup_goal, if_pos rfl]
      · rw [if_neg he, lookup_goal, if_neg he, ih]

theorem lookup_insert_goal_ne {k id : ℕ} (hk : k ≠ id) (g : Goal) :
    ∀ l : List (ℕ × Goal), lookup_goal (insert_goal l id g) k = lookup_goal l k := by
  intro l
  induction l with
  | nil =>
      simp only [insert_goal, lookup_goal]
      rw [if_neg (fun h => hk h.symm)]
  | cons e rest ih =>
      rw [insert_goal]
      by_cases he : e.1 = id
      · rw [if_pos he, lookup_goal, if_neg (show ¬ (id, g).1 = k by
          intro h; exact hk h.symm), lookup_goal, if_neg (by omega)]
      · rw [if_neg he, lookup_goal, lookup_goal, ih]

theorem lookup_goal_map_abandon (j : ℕ) :
    ∀ l : List (ℕ × Goal),
    lookup_goal (l.map (fun e =>
        if e.1 = j then (e.1, { e.2 with status := GoalStatus.abandoned })
        else e)) j =
      (lookup_goal l j).map (fun g => { g with status := GoalStatus.abandoned }) := by
  intro l
  induction l with
  | nil => simp [lookup_goal]
  | cons e rest ih =>
      rw [List.map_cons]
      by_cases he : e.1 = j
      · rw [if_pos he, lookup_goal, lookup_goal, if_pos he, if_pos he]
        rfl
      · rw [if_neg he, lookup_goal, lookup_goal, if_neg he, if_neg he, ih]

theorem lookup_goal_of_mem_nodup :
    ∀ {l : List (ℕ × Goal)} {k : ℕ} {g : Goal},
    (l.map Prod.fst).Nodup → (k, g) ∈ l → lookup_goal l k = some g := by
  intro l
  induction l with
  | nil => intro k g _ h; cases h
  | cons e rest ih =>
      intro k g hnd hmem
      rw [List.map_cons, List.nodup_cons] at hnd
      rcases List.mem_cons.mp hmem with rfl | hmem
      · rw [lookup_goal, if_pos rfl]
      · have hne : e.1 ≠ k := by
          intro h
          exact hnd.1 (h ▸ List.mem_map_of_mem Prod.fst hmem)
        rw [lookup_goal, if_neg hne, ih hnd.2 hmem]

/-- What one `prune_low_priority_goals` call does when some goal is active:
some minimal-importance active entry `(j, gj)` is demoted to `Abandoned` in
place, everything else (including `current_focus`) untouched. -/
theorem prune_spec (now : ℤ) (s : GoalSystem)
    (hne : s.active_entries ≠ []) :
    ∃ j gj, (j, gj) ∈ s.goals ∧ gj.status = .active ∧
      (∀ e ∈ s.goals, e.2.status = .active →
        gj.calculate_importance now ≤ e.2.calculate_importance now) ∧
      (s.prune_low_priority_goals now) =
        { s with
          goals := s.goals.map (fun e =>
            if e.1 = j then (e.1, { e.2 with status := .abandoned }) else e) } := by
  cases hs : s.active_entries.insertionSort (importance_le now) with
  | nil =>
      exfalso
      have hperm := List.perm_insertionSort (importance_le now) s.active_entries
      rw [hs] at hperm
      exact hne (List.perm_nil.mp hperm.symm)
  | cons w tail =>
      have hwmem : w ∈ s.active_entries := by
        have := List.perm_insertionSort (importance_le now) s.active_entries
        rw [hs] at this
        exact this.subset (List.mem_cons_self _ _)
      have hwgoals : w ∈ s.goals ∧ w.2.status = .active := by
        have := List.mem_filter.mp hwmem
        exact ⟨this.1, by simpa using this.2⟩
      refine ⟨w.1, w.2, hwgoals.1, hwgoals.2, ?_, ?_⟩
      · intro e he hact
        have hemem : e ∈ s.active_entries :=
          List.mem_filter.mpr ⟨he, by simpa using hact⟩
        have hesort : e ∈ w :: tail := by
          have := List.perm_insertionSort (importance_le now) s.active_entries
          rw [hs] at this
          exact this.symm.subset hemem
        have hsorted := List.sorted_insertionSort (importance_le now) s.active_entries
        rw [hs] at hsorted
        rcases List.mem_cons.mp hesort with rfl | htail
        · exact le_refl _
        · exact (List.pairwise_cons.mp hsorted).1 e htail
      · rw [GoalSystem.prune_low_priority_goals]
        simp only [hs, List.head?_cons]

/-- The affect snapshot used by the goal scenarios: full arousal, everything
else neutral; epistemic motivation is then `0.5`, above the formation
threshold `0.4`. -/
def scenario_affect : AffectiveState :=
  { valence := 0, arousal := 1, dominance := 0, novelty := 0 }

/-- A goal as `form_goal` would have produced it (epistemic, motivation
`0.5`) with the given priority. -/
def c2_goal (id : ℕ) (priority : ℚ) : Goal :=
  { Goal.new id 0 "an existing goal" .epistemic priority with
    emotional_investment := 1/2
    strategies := generate_default_strategies .epistemic }

/-- The C2 scenario state: `max_active_goals = 2`, two active goals with
priorities `0.9` (id 1) and `0.5` (id 2). -/
def c2_state : GoalSystem :=
  { goals := [(1, c2_goal 1 (9/10)), (2, c2_goal 2 (1/2))]
    current_focus := none
    goal_formation_threshold := 4/10
    max_active_goals := 2
    achievement_history := []
    next_id := 3 }

/-- Counterexample to claim C2 as stated: forming the third goal of priority
`0.2` (motivation `0.5`, above the threshold) abandons the existing
`0.5`-priority goal — pruning runs before the new goal is inserted — and the
new `0.2`-priority goal is admitted as Active, so the two Active goals have
priorities `0.9` and `0.2`, not `0.9` and `0.5`. -/
theorem C2_counterexample_third_goal_survives_prune :
    (∃ g, lookup_goal
        ((GoalSystem.form_goal 0 c2_state "a third goal" .epistemic (2/10)
          scenario_affect).2).goals 3 = some g ∧
      g.status = .active ∧ g.priority = 2/10) ∧
    (∃ g, lookup_goal
        ((GoalSystem.form_goal 0 c2_state "a third goal" .epistemic (2/10)
          scenario_affect).2).goals 2 = some g ∧
      g.status = .abandoned) ∧
    ((GoalSystem.form_goal 0 c2_state "a third goal" .epistemic (2/10)
        scenario_affect).2).get_active_goals.map Goal.priority = [9/10, 2/10] := by
  norm_num [GoalSystem.form_goal, GoalSystem.prune_low_priority_goals,
    GoalSystem.active_entries, GoalSystem.get_active_goals,
    calculate_motivation, Goal.calculate_importance, Goal.new, c2_state,
    c2_goal, scenario_affect, qclamp, min_def, max_def, insert_goal,
    lookup_goal, importance_le, List.insertionSort, List.orderedInsert,
    generate_default_strategies, List.filter_cons, List.filter_nil,
    decide_eq_true_eq, Function.comp, reduceCtorEq]
  rw [if_neg (show ¬ (GoalStatus.abandoned = GoalStatus.active) from by decide)]
  norm_num [Function.comp]

/-- Claim C2 as amended: when motivation passes the threshold and the active
count has reached the cap `max_active_goals` (positive), `form_goal` first
demotes a lowest-importance *existing* active goal to `Abandoned` and then
admits the new goal as Active regardless of its priority — so in the C2
scenario the `0.5`-priority goal is abandoned and the Active goals end up
with priorities `0.9` and `0.2`. -/
theorem C2_amended_prune_precedes_admission (now : ℤ) (s : GoalSystem)
    (description : String) (category : GoalCategory) (priority : ℚ)
    (affective_state : AffectiveState)
    (hmot : ¬ calculate_motivation affective_state category <
      s.goal_formation_threshold)
    (hcap : s.max_active_goals ≤ s.active_entries.length)
    (hpos : 0 < s.max_active_goals)
    (hfresh : ∀ e ∈ s.goals, e.1 < s.next_id) :
    (GoalSystem.form_goal now s description category priority
        affective_state).1 = some s.next_id ∧
    (∃ g, lookup_goal (GoalSystem.form_goal now s description category
        priority affective_state).2.goals s.next_id = some g ∧
      g.status = .active ∧ g.priority = qclamp priority 0 1) ∧
    ∃ j gj, (j, gj) ∈ s.goals ∧ gj.status = .active ∧
      (∀ e ∈ s.goals, e.2.status = .active →
        gj.calculate_importance now ≤ e.2.calculate_importance now) ∧
      ((s.goals.map Prod.fst).Nodup →
        lookup_goal (GoalSystem.form_goal now s description category
          priority affective_state).2.goals j =
          some { gj with status := .abandoned }) := by
  have hne : s.active_entries ≠ [] := by
    intro h
    rw [h] at hcap
    simp at hcap
    omega
  obtain ⟨j, gj, hjmem, hjact, hjmin, hprune⟩ := prune_spec now s hne
  have hform : GoalSystem.form_goal now s description category priority
      affective_state =
      (some s.next_id,
        { s.prune_low_priority_goals now with
          goals := insert_goal (s.prune_low_priority_goals now).goals s.next_id
            { Goal.new s.next_id now description category priority with
              emotional_investment := calculate_motivation affective_state category
              strategies := generate_default_strategies category }
          next_id := s.next_id + 1 }) := by
    rw [GoalSystem.form_goal]
    simp only [if_neg hmot, if_pos hcap]
  refine ⟨by rw [hform], ⟨_, by rw [hform]; exact lookup_insert_goal_self _ _ _,
    rfl, rfl⟩, j, gj, hjmem, hjact, hjmin, ?_⟩
  intro hnodup
  have hjne : j ≠ s.next_id := by
    have := hfresh _ hjmem
    omega
  rw [hform]
  show lookup_goal (insert_goal (s.prune_low_priority_goals now).goals
    s.next_id _) j = _
  rw [lookup_insert_goal_ne hjne, hprune]
  show lookup_goal (s.goals.map fun e =>
    if e.1 = j then (e.1, { e.2 with status := .abandoned }) else e) j = _
  rw [lookup_goal_map_abandon j, lookup_goal_of_mem_nodup hnodup hjmem]
  rfl

/-- Witness for C2 (amended) at the scenario input. -/
theorem C2_amended_prune_precedes_admission_witness :
    (GoalSystem.form_goal 0 c2_state "a third goal" .epistemic (2/10)
        scenario_affect).1 = some c2_state.next_id ∧
    (∃ g, lookup_goal (GoalSystem.form_goal 0 c2_state "a third goal"
        .epistemic (2/10) scenario_affect).2.goals c2_state.next_id = some g ∧
      g.status = .active ∧ g.priority = qclamp (2/10) 0 1) ∧
    ∃ j gj, (j, gj) ∈ c2_state.goals ∧ gj.status = .active ∧
      (∀ e ∈ c2_state.goals, e.2.status = .active →
        gj.calculate_importance 0 ≤ e.2.calculate_importance 0) ∧
      ((c2_state.goals.map Prod.fst).Nodup →
        lookup_goal (GoalSystem.form_goal 0 c2_state "a third goal"
          .epistemic (2/10) scenario_affect).2.goals j =
          some { gj with status := .abandoned }) :=
  C2_amended_prune_precedes_admission 0 c2_state "a third goal" .epistemic
    (2/10) scenario_affect
    (by norm_num [calculate_motivation, scenario_affect, c2_state, qclamp,
      min_def, max_def])
    (by norm_num [GoalSystem.active_entries, c2_state, c2_goal, Goal.new])
    (by norm_num [c2_state])
    (by norm_num [c2_state])

/-- The C5 failing run, step 1: from `GoalSystem::new`, form a modest goal
(priority `0.1`, id 0; epistemic motivation `0.5` passes the threshold). -/
def c5_after_first_goal : GoalSystem :=
  (GoalSystem.new.form_goal 0 "a modest goal" .epistemic (1/10)
    scenario_affect).2

/-- The C5 failing run, step 2: `determine_focus` picks the only goal (its
importance `0.34` exceeds `0.3`), so `current_focus = some 0`. -/
def c5_focused : GoalSystem := (c5_after_first_goal.determine_focus 0).2

/-- The C5 failing run, repeated step: form one ambitious goal (priority
`0.9`, importance `0.66`). -/
def c5_add_high (s : GoalSystem) : GoalSystem :=
  (s.form_goal 0 "an ambitious goal" .epistemic (9/10) scenario_affect).2

/-- The C5 failing run, final state: ten ambitious goals on top of the
focused modest one; the tenth `form_goal` call finds the active count at the
cap (10) and prunes the lowest-importance active goal — the focused one. -/
def c5_final : GoalSystem :=
  c5_add_high (c5_add_high (c5_add_high (c5_add_high (c5_add_high
    (c5_add_high (c5_add_high (c5_add_high (c5_add_high
      (c5_add_high c5_focused)))))))))

set_option maxHeartbeats 3000000 in
/-- Claim C5 is violated by the code (the invariant is the stated intent:
`update_goal_progress` clears a completed focus, but
`prune_low_priority_goals` abandons a goal without clearing the focus): after
the C5 failing run the focus still references goal 0 whose status is
`Abandoned`. -/
theorem C5_focus_left_on_abandoned_goal :
    c5_final.current_focus = some 0 ∧
      ∃ g, lookup_goal c5_final.goals 0 = some g ∧ g.status = .abandoned := by
  norm_num [c5_final, c5_add_high, c5_focused, c5_after_first_goal,
    GoalSystem.new, GoalSystem.form_goal, GoalSystem.determine_focus,
    GoalSystem.prune_low_priority_goals, GoalSystem.active_entries,
    Goal.should_act_on, Goal.calculate_importance, Goal.new,
    calculate_motivation, generate_default_strategies, insert_goal,
    lookup_goal, last_max_by_importance, importance_le, qclamp, min_def,
    max_def, scenario_affect, List.insertionSort, List.orderedInsert]

/-! ## attention.rs — `AttentionSystem` -/

/-- Embedding of `AttentionTarget` (src/attention.rs). -/
inductive AttentionTarget where
  | user_emotion
  | conversation_topic (topic : String)
  | self_goals
  | self_emotion
  | memory_recall
  | problem_solving
  | creative_thinking
  | learning
  | social_dynamics
  | environmental_awareness
deriving DecidableEq

/-- Embedding of `AttentionState` (src/attention.rs). -/
structure AttentionState where
  target : AttentionTarget
  intensity : ℚ
  duration : ℚ
  stability : ℚ
  salience : ℚ
  last_updated : ℤ
deriving DecidableEq

/-- Embedding of `AttentionState::new`. -/
def AttentionState.new (now : ℤ) (target : AttentionTarget)
    (intensity salience : ℚ) : AttentionState :=
  { target := target, intensity := qclamp intensity 0 1, duration := 0
    stability := 1/2, salience := qclamp salience 0 1, last_updated := now }

/-- Embedding of `AttentionSystem` (src/attention.rs); the background
`HashMap` is an association list. -/
structure AttentionSystem where
  primary_focus : Option AttentionState
  background_attention : List (AttentionTarget × AttentionState)
  attention_history : List (ℤ × AttentionTarget × ℚ)
  max_background_targets : ℕ
  distraction_threshold : ℚ
  focus_threshold : ℚ
deriving DecidableEq

/-- Embedding of `AttentionSystem::new`. -/
def AttentionSystem.new : AttentionSystem :=
  { primary_focus := none, background_attention := [], attention_history := []
    max_background_targets := 5, distraction_threshold := 7/10
    focus_threshold := 3/5 }

/-- Embedding of `HashMap::insert` on the background map. -/
def insert_background :
    List (AttentionTarget × AttentionState) → AttentionTarget →
      AttentionState → List (AttentionTarget × AttentionState)
  | [], k, v => [(k, v)]
  | e :: rest, k, v =>
      if e.1 = k then (k, v) :: rest else e :: insert_background rest k v

/-- Embedding of `Iterator::min_by` on intensities (the first minimal entry
wins ties, matching iteration order). -/
def first_min_by_intensity :
    List (AttentionTarget × AttentionState) →
      Option (AttentionTarget × AttentionState)
  | [] => none
  | e :: rest =>
      match first_min_by_intensity rest with
      | none => some e
      | some m => if m.2.intensity < e.2.intensity then some m else some e

/-- Embedding of `HashMap::remove` (keys are unique, so removing the first
entry with the key removes the key). -/
def remove_background (l : List (AttentionTarget × AttentionState))
    (k : AttentionTarget) : List (AttentionTarget × AttentionState) :=
  l.eraseP (fun e => decide (e.1 = k))

/-- Embedding of `AttentionSystem::prune_background_attention`: when the map
exceeds `max_background_targets`, remove the weakest (lowest-intensity)
entry. -/
def AttentionSystem.prune_background_attention (s : AttentionSystem) :
    AttentionSystem :=
  if s.max_background_targets < s.background_attention.length then
    match first_min_by_intensity s.background_attention with
    | some weakest =>
        { s with
          background_attention :=
            remove_background s.background_attention weakest.1 }
    | none => s
  else s

/-- Embedding of `AttentionSystem::focus_on`: record the attention shift; at
or above the focus threshold, demote a sufficiently intense current primary
focus into the background (without pruning) and take primary focus;
otherwise insert into the background and prune. -/
def AttentionSystem.focus_on (now : ℤ) (s : AttentionSystem)
    (target : AttentionTarget) (intensity salience : ℚ) : AttentionSystem :=
  let new_attention := AttentionState.new now target intensity salience
  let s :=
    { s with
      attention_history := s.attention_history ++ [(now, target, intensity)] }
  if s.focus_threshold ≤ intensity then
    let s :=
      match s.primary_focus with
      | some current_focus =>
          if 3/10 < current_focus.intensity then
            { s with
              background_attention :=
                insert_background s.background_attention current_focus.target
                  current_focus }
          else s
      | none => s
    { s with primary_focus := some new_attention }
  else
    AttentionSystem.prune_background_attention
      { s with
        background_attention :=
          insert_background s.background_attention target new_attention }

theorem insert_background_fresh {k : AttentionTarget} (v : AttentionState) :
    ∀ {l : List (AttentionTarget × AttentionState)},
    (∀ e ∈ l, e.1 ≠ k) → insert_background l k v = l ++ [(k, v)] := by
  intro l
  induction l with
  | nil => intro _; rfl
  | cons e rest ih =>
      intro h
      rw [insert_background, if_neg (h e (List.mem_cons_self _ _)),
        ih (fun x hx => h x (List.mem_cons_of_mem _ hx)), List.cons_append]

theorem first_min_by_intensity_spec :
    ∀ {l : List (AttentionTarget × AttentionState)}, l ≠ [] →
    ∃ w, first_min_by_intensity l = some w ∧ w ∈ l ∧
      ∀ e ∈ l, w.2.intensity ≤ e.2.intensity := by
  intro l
  induction l with
  | nil => intro h; exact absurd rfl h
  | cons e rest ih =>
      intro _
      by_cases hrest : rest = []
      · subst hrest
        refine ⟨e, rfl, List.mem_cons_self _ _, ?_⟩
        intro x hx
        rw [List.mem_singleton.mp hx]
      · obtain ⟨w, hw, hwmem, hwmin⟩ := ih hrest
        by_cases hcmp : w.2.intensity < e.2.intensity
        · refine ⟨w, ?_, List.mem_cons_of_mem _ hwmem, ?_⟩
          · simp [first_min_by_intensity, hw, hcmp]
          · intro x hx
            rcases List.mem_cons.mp hx with rfl | hx
            · exact le_of_lt hcmp
            · exact hwmin x hx
        · refine ⟨e, ?_, List.mem_cons_self _ _, ?_⟩
          · simp [first_min_by_intensity, hw, hcmp]
          · intro x hx
            rcases List.mem_cons.mp hx with rfl | hx
            · exact le_refl _
            · exact le_trans (le_of_not_lt hcmp) (hwmin x hx)

theorem insert_background_length_le
    (k : AttentionTarget) (v : AttentionState) :
    ∀ l : List (AttentionTarget × AttentionState),
    (insert_background l k v).length ≤ l.length + 1 := by
  intro l
  induction l with
  | nil => simp [insert_background]
  | cons e rest ih =>
      rw [insert_background]
      by_cases h : e.1 = k
      · rw [if_pos h]
        simp
      · rw [if_neg h]
        simpa using ih

theorem prune_background_length (s : AttentionSystem)
    (h : s.background_attention.length ≤ s.max_background_targets + 1) :
    (s.prune_background_attention).background_attention.length ≤
      s.max_background_targets := by
  rw [AttentionSystem.prune_background_attention]
  by_cases hlen : s.max_background_targets < s.background_attention.length
  · rw [if_pos hlen]
    have hne : s.background_attention ≠ [] := by
      intro hnil
      rw [hnil] at hlen
      simp at hlen
    obtain ⟨w, hw, hwmem, _⟩ := first_min_by_intensity_spec hne
    rw [hw]
    show (remove_background s.background_attention w.1).length ≤ _
    rw [remove_background]
    have := @List.length_eraseP_add_one _ (fun e => decide (e.1 = w.1)) _ _ hwmem
      (decide_eq_true rfl)
    omega
  · rw [if_neg hlen]
    omega

/-- A below-threshold `focus_on` whose target is new to a background map that
stays within the cap: the entry is appended and nothing is pruned. -/
theorem focus_on_below_no_prune (now : ℤ) (s : AttentionSystem)
    (target : AttentionTarget) (intensity salience : ℚ)
    (hint : intensity < s.focus_threshold)
    (hfresh : ∀ e ∈ s.background_attention, e.1 ≠ target)
    (hlen : s.background_attention.length + 1 ≤ s.max_background_targets) :
    s.focus_on now target intensity salience =
      { s with
        attention_history := s.attention_history ++ [(now, target, intensity)]
        background_attention := s.background_attention ++
          [(target, AttentionState.new now target intensity salience)] } := by
  rw [AttentionSystem.focus_on]
  simp only [if_neg (not_le.mpr hint)]
  rw [AttentionSystem.prune_background_attention]
  simp only [insert_background_fresh _ hfresh]
  rw [if_neg (by simp only [List.length_append, List.length_singleton]; omega)]

/-- An at-or-above-threshold `focus_on` with no current primary focus: the
target becomes the primary focus and the background map is untouched. -/
theorem focus_on_primary_none (now : ℤ) (s : AttentionSystem)
    (target : AttentionTarget) (intensity salience : ℚ)
    (hthr : s.focus_threshold ≤ intensity)
    (hnone : s.primary_focus = none) :
    s.focus_on now target intensity salience =
      { s with
        attention_history := s.attention_history ++ [(now, target, intensity)]
        primary_focus := some (AttentionState.new now target intensity salience) } := by
  rw [AttentionSystem.focus_on]
  simp only [if_pos hthr, hnone]

/-- An at-or-above-threshold `focus_on` with a sufficiently intense current
primary focus: the old focus is inserted into the background (no pruning) and
the target becomes the primary focus. -/
theorem focus_on_primary_demote (now : ℤ) (s : AttentionSystem)
    (target : AttentionTarget) (intensity salience : ℚ)
    (cf : AttentionState) (hthr : s.focus_threshold ≤ intensity)
    (hsome : s.primary_focus = some cf) (hcf : 3/10 < cf.intensity) :
    s.focus_on now target intensity salience =
      { s with
        attention_history := s.attention_history ++ [(now, target, intensity)]
        background_attention :=
          insert_background s.background_attention cf.target cf
        primary_focus := some (AttentionState.new now target intensity salience) } := by
  rw [AttentionSystem.focus_on]
  simp only [if_pos hthr, hsome, if_pos hcf]

/-- A background entry of the C7 run. -/
def c7_entry (t : AttentionTarget) (i : ℚ) : AttentionTarget × AttentionState :=
  (t, { target := t, intensity := i, duration := 0, stability := 1/2
        salience := 1/2, last_updated := 0 })

/-- Background targets of the C7 run, in insertion order. -/
def c7_targets : List AttentionTarget :=
  [.user_emotion, .self_goals, .self_emotion, .memory_recall, .problem_solving]

/-- The state of the C7 run after `k` below-threshold `focus_on` calls at
intensity `0.5` on the first `k` of `c7_targets`. -/
def c7_state (k : ℕ) : AttentionSystem :=
  { primary_focus := none
    background_attention := (c7_targets.take k).map (fun t => c7_entry t (1/2))
    attention_history := (c7_targets.take k).map (fun t => (0, t, 1/2))
    max_background_targets := 5, distraction_threshold := 7/10
    focus_threshold := 3/5 }

/-- The C7 run, first five calls: five distinct background targets at
intensity `0.5` from a fresh attention system. -/
def c7_full_background : AttentionSystem :=
  ((((AttentionSystem.new.focus_on 0 .user_emotion (1/2) (1/2)).focus_on 0
    .self_goals (1/2) (1/2)).focus_on 0 .self_emotion (1/2) (1/2)).focus_on 0
    .memory_recall (1/2) (1/2)).focus_on 0 .problem_solving (1/2) (1/2)

theorem c7_full_background_eq : c7_full_background = c7_state 5 := by
  rw [c7_full_background]
  have h0 : AttentionSystem.new = c7_state 0 := by
    norm_num [AttentionSystem.new, c7_state, c7_targets]
  rw [h0]
  have step : ∀ (k : ℕ) (t : AttentionTarget), k < 5 →
      c7_targets.get? k = some t →
      (c7_state k).focus_on 0 t (1/2) (1/2) = c7_state (k + 1) := by
    intro k t hk ht
    rw [focus_on_below_no_prune 0 (c7_state k) t (1/2) (1/2)
      (by norm_num [c7_state])
      ?_ ?_]
    · interval_cases k <;>
        simp_all [c7_state, c7_targets, c7_entry, AttentionState.new, qclamp,
          min_def, max_def] <;> norm_num
    · interval_cases k <;> simp_all [c7_state, c7_targets, c7_entry] <;>
        (subst ht) <;> simp
    · interval_cases k <;> simp_all [c7_state, c7_targets]
  rw [step 0 _ (by omega) rfl, step 1 _ (by omega) rfl, step 2 _ (by omega) rfl,
    step 3 _ (by omega) rfl, step 4 _ (by omega) rfl]

/-- The C7 counterexample run: the five background targets, then two
successive high-intensity primary focuses; the second one demotes the first
into the background without pruning. -/
def c7_final : AttentionSystem :=
  (c7_full_background.focus_on 0 .creative_thinking (7/10) (1/2)).focus_on 0
    .learning (8/10) (1/2)

/-- Counterexample to claim C7 as stated: after the C7 run the background map
holds 6 targets while `max_background_targets = 5` — the primary-focus branch
of `focus_on` bypasses pruning, so the map is not bounded by N after every
`focus_on` call. -/
theorem C7_counterexample_background_exceeds_cap :
    c7_final.background_attention.length = 6 ∧
      c7_final.max_background_targets = 5 := by
  rw [c7_final, c7_full_background_eq]
  rw [focus_on_primary_none 0 (c7_state 5) .creative_thinking (7/10) (1/2)
    (by norm_num [c7_state]) (by norm_num [c7_state])]
  rw [focus_on_primary_demote 0 _ .learning (8/10) (1/2)
    (AttentionState.new 0 .creative_thinking (7/10) (1/2))
    (by norm_num [c7_state]) rfl
    (by norm_num [AttentionState.new, qclamp, min_def, max_def])]
  simp [c7_state, c7_targets, c7_entry, AttentionState.new, qclamp, min_def,
    max_def, insert_background]

/-- Claim C7 as amended: when `focus_on` inserts a below-threshold target
that is new to a background map at capacity N, the single lowest-intensity
entry of the resulting (N+1)-entry map (possibly the new entry itself) is
evicted, leaving exactly N; in general every below-threshold `focus_on` on a
map within its cap leaves the map within its cap, but the at-or-above
threshold branch can push the map past N by demoting the previous primary
focus without pruning. -/
theorem C7_amended_weakest_evicted (now : ℤ) (s : AttentionSystem)
    (target : AttentionTarget) (intensity salience : ℚ)
    (hint : intensity < s.focus_threshold)
    (hlen : s.background_attention.length = s.max_background_targets)
    (hfresh : ∀ e ∈ s.background_attention, e.1 ≠ target) :
    (s.focus_on now target intensity salience).background_attention.length =
      s.max_background_targets ∧
    (∃ w,
      w ∈ s.background_attention ++
        [(target, AttentionState.new now target intensity salience)] ∧
      (∀ e ∈ s.background_attention ++
          [(target, AttentionState.new now target intensity salience)],
        w.2.intensity ≤ e.2.intensity) ∧
      (s.focus_on now target intensity salience).background_attention =
        (s.background_attention ++
          [(target, AttentionState.new now target intensity salience)]).eraseP
          (fun e => decide (e.1 = w.1))) ∧
    ∀ (s2 : AttentionSystem) (t2 : AttentionTarget) (i2 sal2 : ℚ),
      i2 < s2.focus_threshold →
      s2.background_attention.length ≤ s2.max_background_targets →
      (s2.focus_on now t2 i2 sal2).background_attention.length ≤
        s2.max_background_targets := by
  have hbranch : ∀ (s2 : AttentionSystem) (t2 : AttentionTarget)
      (i2 sal2 : ℚ), i2 < s2.focus_threshold →
      s2.focus_on now t2 i2 sal2 =
        AttentionSystem.prune_background_attention
          { s2 with
            attention_history := s2.attention_history ++ [(now, t2, i2)]
            background_attention :=
              insert_background s2.background_attention t2
                (AttentionState.new now t2 i2 sal2) } := by
    intro s2 t2 i2 sal2 hi
    rw [AttentionSystem.focus_on]
    simp only [if_neg (not_le.mpr hi)]
  have hcap : ∀ (s2 : AttentionSystem) (t2 : AttentionTarget) (i2 sal2 : ℚ),
      i2 < s2.focus_threshold →
      s2.background_attention.length ≤ s2.max_background_targets →
      (s2.focus_on now t2 i2 sal2).background_attention.length ≤
        s2.max_background_targets := by
    intro s2 t2 i2 sal2 hi hl
    rw [hbranch s2 t2 i2 sal2 hi]
    exact prune_background_length _
      (by simpa using le_trans (insert_background_length_le _ _ _) (by omega))
  have hins : insert_background s.background_attention target
      (AttentionState.new now target intensity salience) =
      s.background_attention ++
        [(target, AttentionState.new now target intensity salience)] :=
    insert_background_fresh _ hfresh
  have hne : s.background_attention ++
      [(target, AttentionState.new now target intensity salience)] ≠ [] := by
    simp
  obtain ⟨w, hw, hwmem, hwmin⟩ := first_min_by_intensity_spec hne
  have hform : (s.focus_on now target intensity salience).background_attention =
      (s.background_attention ++
        [(target, AttentionState.new now target intensity salience)]).eraseP
        (fun e => decide (e.1 = w.1)) := by
    rw [hbranch s target intensity salience hint,
      AttentionSystem.prune_background_attention]
    simp only [hins]
    rw [if_pos (by simp [hlen]), hw]
    rfl
  refine ⟨?_, ⟨w, hwmem, hwmin, hform⟩, hcap⟩
  rw [hform]
  have := @List.length_eraseP_add_one _ (fun e => decide (e.1 = w.1)) _ _ hwmem
      (decide_eq_true rfl)
  simp only [List.length_append, List.length_singleton, hlen] at this ⊢
  omega

/-- Witness for C7 (amended) at a concrete input: a sixth below-threshold
target on the full background map leaves exactly 5 targets. -/
theorem C7_amended_weakest_evicted_witness :
    (c7_full_background.focus_on 0 .creative_thinking (1/2)
      (1/2)).background_attention.length =
      c7_full_background.max_background_targets :=
  (C7_amended_weakest_evicted 0 c7_full_background .creative_thinking (1/2)
    (1/2)
    (by rw [c7_full_background_eq]; norm_num [c7_state])
    (by rw [c7_full_background_eq]; norm_num [c7_state, c7_targets, c7_entry])
    (by
      rw [c7_full_background_eq]
      intro e he
      simp [c7_state, c7_targets, c7_entry] at he
      rcases he with h | h | h | h | h <;> simp [h])).1

end Cogno
